import Mathlib

/-!
Shallow embedding of `src/sentry/static/sentry/app/api.tsx` (the frontend API
client of the sentry repository) and proofs about it.

The TypeScript module is callback/event-loop code over jQuery's ajax.  The
embedding makes the implicit state explicit:

* `ClientState` is the `Client` instance state (`baseUrl`, `activeRequests`);
  the JS object registry is an association list from request id to `Request`.
* Caller-supplied callbacks (`success`/`error`/`complete`) are opaque: an
  invocation is recorded as an `Event` in an event trace rather than executed.
* The asynchronous completion of a jQuery ajax call is modelled by an explicit
  `TransportOutcome` delivered to the handlers that `Client.request` installs
  (`deliverOutcome`), exactly mirroring the `success`/`error`/`complete`
  handlers in the source.
* Purely telemetric calls (`metric.mark`, `metric.measure`, `hub.startSpan`)
  are not modelled; the Sentry reports that the module's contract mentions
  (serialization-failure report, error-response report) are events.

JS-specific semantics that the source relies on are modelled explicitly:
nil-ness (`isNil` / `isUndefined`) becomes `Option`, and JS truthiness of a
string (`params.query` truthy iff defined and nonempty) or of the `data`
payload (`options.data ? 'POST' : 'GET'`) is modelled by dedicated functions.
-/

/-- HTTP methods accepted by the client (type `APIRequestMethod` in the source). -/
inductive APIRequestMethod where
  | POST
  | GET
  | DELETE
  | PUT
  deriving DecidableEq, Repr

/-- Modelled from the spec: the error codes imported from
`app/constants/apiErrorCodes` (that file is not part of the given sources).
They are three pairwise distinct string constants. -/
def SUDO_REQUIRED : String := "sudo-required"

/-- Modelled from the spec: see `SUDO_REQUIRED`. -/
def SUPERUSER_REQUIRED : String := "superuser-required"

/-- Modelled from the spec: see `SUDO_REQUIRED`. -/
def PROJECT_MOVED : String := "project-moved"

/-- Runtime JS values that flow through callbacks: response-like objects (with
the `responseJSON.detail` fields that `get(response, ...)` reads, and an HTTP
status), plain strings, tuples (arrays), the constructed request-error object
of `createRequestError`, and `undefined`. -/
inductive Val where
  | undefined
  | text (s : String)
  | pair (a b : Val)
  | resp (detailCode : Option String) (detailSlug : Option String) (status : Nat) (body : String)
  | requestError (response : Val) (stack : String) (method : Option APIRequestMethod) (path : String)
  deriving DecidableEq, Repr

/-- The value of `get(v, 'responseJSON.detail.code')`: `undefined` on anything
but a response object carrying the field. -/
def Val.detailCode : Val → Option String
  | .resp c _ _ _ => c
  | _ => none

/-- The value of `get(v, 'responseJSON.detail.extra.slug')`. -/
def Val.detailSlug : Val → Option String
  | .resp _ s _ _ => s
  | _ => none

/-- The value of `v.status` (0 when the value has no status field). -/
def Val.status : Val → Nat
  | .resp _ _ st _ => st
  | _ => 0

/-- JS array literal `[v1, ..., vn]` encoded as right-nested pairs. -/
def tupleOf : List Val → Val
  | [] => .undefined
  | v :: rest => .pair v (tupleOf rest)

/-- Modelled from the spec: `app/utils/requestError/createRequestError` (not
part of the given sources) builds an error object carrying the original
response, the pre-captured stack, the request method and the path.  The
`removeFrames` call only trims the cosmetic stack prefix and is not modelled. -/
def createRequestError (resp : Val) (stack : String) (method : Option APIRequestMethod)
    (path : String) : Val :=
  .requestError resp stack method path

/-! ### paramsToQueryArgs -/

/-- The loosely-typed parameter bag accepted by `paramsToQueryArgs`.  The
TypeScript annotation only lists `itemIds`/`query`/`environment`/`project`,
but the function dynamically reads `start`/`end`/`period`/`utc` off the bag
(`params[prop]`), so the runtime bag can carry them; `none` is JS
null/undefined (`isNil`). -/
structure ParamsType where
  itemIds : Option (List Int) := none
  query : Option String := none
  environment : Option String := none
  project : Option (List Int) := none
  start : Option String := none
  «end» : Option String := none
  period : Option String := none
  utc : Option Bool := none
  deriving DecidableEq, Repr

/-- Result shape of `paramsToQueryArgs` (type `QueryArgs` in the source, with
all optional keys made explicit; a key is absent iff the field is `none`). -/
structure QueryArgs where
  id : Option (List Int) := none
  query : Option String := none
  environment : Option String := none
  project : Option (List Int) := none
  start : Option String := none
  «end» : Option String := none
  statsPeriod : Option String := none
  utc : Option Bool := none
  deriving DecidableEq, Repr

/-- JS truthiness of an optional string: truthy iff defined and nonempty. -/
def jsTruthyStr : Option String → Bool
  | none => false
  | some s => decide (s ≠ "")

/-- Embedding of `paramsToQueryArgs` (api.tsx lines 59-85).  Branch structure:
`params.itemIds ? {id: ...} : params.query ? {query: ...} : {}`, then the
environment / project / date-field conditional copies.  Note that the date
block is guarded by `if (params.query)` alone, not by which filter branch was
taken. -/
def paramsToQueryArgs (params : ParamsType) : QueryArgs :=
  let p : QueryArgs :=
    match params.itemIds with
    | some ids => { id := some ids }
    | none => if jsTruthyStr params.query then { query := params.query } else {}
  let p := if jsTruthyStr params.query && params.environment.isSome then
      { p with environment := params.environment }
    else p
  let p := match params.project with
    | some l => if l ≠ [] then { p with project := some l } else p
    | none => p
  if jsTruthyStr params.query then
    let p := if params.start.isSome then { p with start := params.start } else p
    let p := if params.«end».isSome then { p with «end» := params.«end» } else p
    let p := if params.period.isSome then { p with statsPeriod := params.period } else p
    let p := if params.utc.isSome then { p with utc := params.utc } else p
    p
  else p

/-- Claim C1 (amended): for every parameter bag whose `itemIds` field is a
non-empty list and whose `query` field is not a non-empty string (so the
free-text branch cannot contribute), `paramsToQueryArgs` returns the
identifier filter `id = itemIds`, no `query` key, and none of the date fields
`start`/`end`/`statsPeriod`/`utc`. -/
theorem paramsToQueryArgs_id_filter_no_dates (params : ParamsType) (l : List Int)
    (hid : params.itemIds = some l) (hne : l ≠ [])
    (hq : jsTruthyStr params.query = false) :
    (paramsToQueryArgs params).id = some l ∧
    (paramsToQueryArgs params).query = none ∧
    (paramsToQueryArgs params).start = none ∧
    (paramsToQueryArgs params).«end» = none ∧
    (paramsToQueryArgs params).statsPeriod = none ∧
    (paramsToQueryArgs params).utc = none := by
  unfold paramsToQueryArgs
  rw [hid, hq]
  cases hp : params.project with
  | none => simp
  | some pl => by_cases hpl : pl = [] <;> simp [hpl]

/-- Claim C1 witness for the amended theorem. -/
theorem paramsToQueryArgs_id_filter_no_dates_witness :
    (({ itemIds := some [1, 2] } : ParamsType).itemIds = some [1, 2] ∧
      ([1, 2] : List Int) ≠ [] ∧
      jsTruthyStr ({ itemIds := some [1, 2] } : ParamsType).query = false) ∧
    ((paramsToQueryArgs { itemIds := some [1, 2] }).id = some [1, 2] ∧
      (paramsToQueryArgs { itemIds := some [1, 2] }).query = none ∧
      (paramsToQueryArgs { itemIds := some [1, 2] }).start = none ∧
      (paramsToQueryArgs { itemIds := some [1, 2] }).«end» = none ∧
      (paramsToQueryArgs { itemIds := some [1, 2] }).statsPeriod = none ∧
      (paramsToQueryArgs { itemIds := some [1, 2] }).utc = none) :=
  ⟨⟨rfl, by decide, rfl⟩,
    paramsToQueryArgs_id_filter_no_dates { itemIds := some [1, 2] } [1, 2] rfl (by decide) rfl⟩

/-- Claim C1 counterexample to the claim as stated: a bag with non-empty
`itemIds` AND a non-empty `query` string.  The result does take the
identifier filter, but the date block (`if (params.query)`) still copies the
non-nil `start` field, so the result is not free of date fields. -/
theorem paramsToQueryArgs_id_filter_date_leak :
    (paramsToQueryArgs { itemIds := some [1], query := some "q", start := some "2020-01-01" }).id
        = some [1] ∧
    (paramsToQueryArgs { itemIds := some [1], query := some "q", start := some "2020-01-01" }).start
        = some "2020-01-01" := by
  constructor <;> rfl

/-- Claim C7: for every parameter bag with no `itemIds` and a non-empty
`query` string, the result carries that string under the `query` key, and each
date field (`start`, `end`, `period` renamed to `statsPeriod`, `utc`) is
present iff (and equal to) the corresponding non-nil input field. -/
theorem paramsToQueryArgs_query_dates (params : ParamsType) (s : String)
    (hid : params.itemIds = none) (hq : params.query = some s) (hs : s ≠ "") :
    (paramsToQueryArgs params).query = some s ∧
    (paramsToQueryArgs params).start = params.start ∧
    (paramsToQueryArgs params).«end» = params.«end» ∧
    (paramsToQueryArgs params).statsPeriod = params.period ∧
    (paramsToQueryArgs params).utc = params.utc := by
  unfold paramsToQueryArgs
  rw [hid, hq]
  have ht : jsTruthyStr (some s) = true := by simp [jsTruthyStr, hs]
  rw [ht]
  cases params.environment <;>
    cases hp : params.project <;>
    cases params.start <;>
    cases params.«end» <;>
    cases params.period <;>
    cases params.utc <;>
    simp_all <;>
    (try split) <;> simp_all

/-- Claim C7 witness. -/
theorem paramsToQueryArgs_query_dates_witness :
    (({ query := some "is:unresolved", start := some "2020-01-01" } : ParamsType).itemIds = none ∧
      ({ query := some "is:unresolved", start := some "2020-01-01" } : ParamsType).query
        = some "is:unresolved" ∧
      ("is:unresolved" : String) ≠ "") ∧
    ((paramsToQueryArgs { query := some "is:unresolved", start := some "2020-01-01" }).query
        = some "is:unresolved" ∧
      (paramsToQueryArgs { query := some "is:unresolved", start := some "2020-01-01" }).start
        = ({ query := some "is:unresolved", start := some "2020-01-01" } : ParamsType).start ∧
      (paramsToQueryArgs { query := some "is:unresolved", start := some "2020-01-01" }).«end»
        = ({ query := some "is:unresolved", start := some "2020-01-01" } : ParamsType).«end» ∧
      (paramsToQueryArgs { query := some "is:unresolved", start := some "2020-01-01" }).statsPeriod
        = ({ query := some "is:unresolved", start := some "2020-01-01" } : ParamsType).period ∧
      (paramsToQueryArgs { query := some "is:unresolved", start := some "2020-01-01" }).utc
        = ({ query := some "is:unresolved", start := some "2020-01-01" } : ParamsType).utc) :=
  ⟨⟨rfl, rfl, by decide⟩,
    paramsToQueryArgs_query_dates { query := some "is:unresolved", start := some "2020-01-01" }
      "is:unresolved" rfl rfl (by decide)⟩

/-! ### The Client state model -/

/-- Embedding of class `Request` (api.tsx lines 16-30): the handle for one
in-flight call.  The underlying `JQueryXHR` is external and not modelled; only
the `alive` flag matters to the wrapper logic. -/
structure Request where
  alive : Bool
  deriving DecidableEq, Repr

/-- `Request.cancel()` marks the handle not-alive (and aborts the underlying
xhr, which is external; the `metric` call is telemetry). -/
def Request.cancel (r : Request) : Request :=
  { r with alive := false }

/-- The JS object `this.activeRequests` as an association list keyed by the
generated request id. -/
abbrev Registry := List (String × Request)

/-- Property read `this.activeRequests[id]` (undefined when absent). -/
def lookupReq : Registry → String → Option Request
  | [], _ => none
  | p :: rest, id => if p.1 = id then some p.2 else lookupReq rest id

/-- JS `delete this.activeRequests[id]`. -/
def delEntry (m : Registry) (id : String) : Registry :=
  m.filter fun p => decide (p.1 ≠ id)

/-- JS assignment `this.activeRequests[id] = r` (replace-or-insert). -/
def setEntry (m : Registry) (id : String) (r : Request) : Registry :=
  delEntry m id ++ [(id, r)]

/-- Cancelling the handle stored under `id`: the handle returned by `request`
aliases the registry entry in JS, so `handle.cancel()` mutates the entry. -/
def cancelEntry (m : Registry) (id : String) : Registry :=
  m.map fun p => if p.1 = id then (p.1, p.2.cancel) else p

/-- Number of registry entries stored under `id`. -/
def countKey (m : Registry) (id : String) : Nat :=
  m.countP fun p => decide (p.1 = id)

/-- The instance state of class `Client` (api.tsx lines 105-115). -/
structure ClientState where
  baseUrl : String := "/api/0"
  activeRequests : Registry := []
  deriving DecidableEq, Repr

/-! ### Callbacks, events and request options -/

/-- Which caller-supplied callback of the options bag. -/
inductive CbName where
  | success
  | error
  | complete
  deriving DecidableEq, Repr

/-- Query value handed to `$.param`: either it serializes to a string or it
throws (e.g. a circular object), carrying the thrown error message. -/
inductive QueryVal where
  | ok (s : String)
  | bad (err : String)
  deriving DecidableEq, Repr

/-- Observable effects of the client.  Caller-callback invocations are
recorded rather than executed; the two Sentry reports that the module's
contract mentions are events; `redirectToProject` and `openSudo` are external
collaborators whose invocation is an event. -/
inductive Event where
  | cbCall (k : CbName) (args : List Val)
  | redirect (slug : Option String)
  | openSudoModal (superuser : Bool) (sudoMode : Bool)
  | serializationReport (path : String) (query : Option QueryVal)
  | errorReport (status : Nat)
  | promiseResolve (v : Val)
  | promiseReject (e : Val)
  deriving DecidableEq, Repr

/-- A function value stored in an options bag: either an opaque caller
callback, or one of the two closures that `requestPromise` installs (the
promise resolver capturing `includeAllArgs`, and the rejecter capturing the
pre-captured stack, the caller's `options.method` and the path). -/
inductive Cb where
  | caller (k : CbName)
  | resolver (includeAllArgs : Bool)
  | rejecter (stack : String) (method : Option APIRequestMethod) (path : String)
  deriving DecidableEq, Repr

/-- Calling a stored function value with the given argument list. -/
def invokeCb : Cb → List Val → List Event
  | .caller k, args => [.cbCall k args]
  | .resolver _, [] => [.promiseResolve .undefined]
  | .resolver all, v :: rest =>
      [.promiseResolve (if all then tupleOf (v :: rest) else v)]
  | .rejecter stack method path, [] =>
      [.promiseReject (createRequestError .undefined stack method path)]
  | .rejecter stack method path, resp :: _ =>
      [.promiseReject (createRequestError resp stack method path)]

/-- The `options.data` payload (`any` in the source): `json` is what
`JSON.stringify` produces for it, `truthy` its JS truthiness (an object is
truthy; `0`, the empty string, `false` and `null` are falsy). -/
structure DataVal where
  json : String
  truthy : Bool := true
  deriving DecidableEq, Repr

/-- Embedding of type `RequestOptions` (api.tsx lines 98-103).  `none` is JS
undefined; `preservedError` is the pre-captured error, reduced to its stack. -/
structure RequestOptions where
  method : Option APIRequestMethod := none
  data : Option DataVal := none
  query : Option QueryVal := none
  preservedError : Option String := none
  success : Option Cb := none
  error : Option Cb := none
  complete : Option Cb := none
  deriving DecidableEq, Repr

/-- JS truthiness of `options.data` in `options.data ? 'POST' : 'GET'`:
undefined is falsy, otherwise the value's own truthiness. -/
def dataTruthy : Option DataVal → Bool
  | none => false
  | some d => d.truthy

/-- Modelled from the spec: jQuery's `$.param(query, true)` (external library
function), which either produces the serialized query string or throws on an
unserializable argument.  `options.query || []` makes an absent query
serialize to the empty string. -/
def jqParamRun : Option QueryVal → Except Val String
  | none => .ok ""
  | some (.ok s) => .ok s
  | some (.bad err) => .error (.text err)

/-- Whether `$.param` succeeds on this query value. -/
def serializesOk (q : Option QueryVal) : Bool :=
  match jqParamRun q with
  | .ok _ => true
  | .error _ => false

/-- Substring test on character lists (needle contained in haystack). -/
def charsContain (hay needle : List Char) : Bool :=
  match hay with
  | [] => needle.isEmpty
  | c :: rest => needle.isPrefixOf (c :: rest) || charsContain rest needle

/-- JS `haystack.indexOf(needle) !== -1`. -/
def strContains (hay needle : String) : Bool :=
  charsContain hay.data needle.data

/-- URL construction of `request` (api.tsx lines 245-257): prefix with the
base URL unless the path already contains it, then append the serialized query
with `?` or `&` depending on whether the URL already has a query string. -/
def buildFullUrl (baseUrl path query : String) : String :=
  let fullUrl := if strContains path baseUrl then path else baseUrl ++ path
  if query = "" then fullUrl
  else if strContains fullUrl "?" then fullUrl ++ "&" ++ query
  else fullUrl ++ "?" ++ query

/-- The `data` argument handed to `$.ajax`: untouched (`raw`) unless it was
defined and the method is not GET, in which case it is the JSON text
(api.tsx lines 217-219). -/
inductive BodyVal where
  | undefined
  | raw (d : DataVal)
  | json (s : String)
  deriving DecidableEq, Repr

/-- `const method = options.method || (options.data ? 'POST' : 'GET')`. -/
def effectiveMethod (options : RequestOptions) : APIRequestMethod :=
  match options.method with
  | some m => m
  | none => if dataTruthy options.data then .POST else .GET

/-- `if (!isUndefined(data) && method !== 'GET') data = JSON.stringify(data)`. -/
def serializeBody (data : Option DataVal) (method : APIRequestMethod) : BodyVal :=
  match data with
  | none => .undefined
  | some d => if method ≠ .GET then .json d.json else .raw d

/-- What `request` hands to `$.ajax`: the full url, effective method and body. -/
structure AjaxSpec where
  url : String
  method : APIRequestMethod
  body : BodyVal
  deriving DecidableEq, Repr

/-- Completion of the underlying ajax transport: jQuery invokes `success` and
then `complete`, or `error` and then `complete`, with these arguments. -/
inductive TransportOutcome where
  | success (data : Val) (textStatus : String) (xhr : Val)
  | failure (resp : Val) (textStatus : String) (errorThrown : String)
  deriving DecidableEq, Repr

/-- Settlement of the promise returned by `requestPromise`. -/
inductive PromiseSettle where
  | res (v : Val)
  | rej (e : Val)
  deriving DecidableEq, Repr

/-- First promise settlement among a list of events, if any. -/
def settleOfEvents : List Event → Option PromiseSettle
  | [] => none
  | .promiseResolve v :: _ => some (.res v)
  | .promiseReject e :: _ => some (.rej e)
  | _ :: rest => settleOfEvents rest

namespace Client

/-- `Client.hasProjectBeenRenamed` (api.tsx lines 121-134): when the response
carries the `PROJECT_MOVED` code, invoke the redirect collaborator with the
slug and return true. -/
def hasProjectBeenRenamedRun (v : Val) : Bool × List Event :=
  if v.detailCode = some PROJECT_MOVED then (true, [.redirect v.detailSlug])
  else (false, [])

/-- One invocation of the closure returned by `Client.wrapCallback(id, func,
cleanup)` (api.tsx lines 136-159) with the argument list `args`: read the
registry entry, delete it when `cleanup`, and only when the entry exists and
is alive run the renamed-redirect check and then the wrapped function. -/
def wrapCallbackRun (st : ClientState) (id : String) (func : Option Cb) (cleanup : Bool)
    (args : List Val) : ClientState × List Event :=
  let req := lookupReq st.activeRequests id
  let st1 := if cleanup then { st with activeRequests := delEntry st.activeRequests id } else st
  match req with
  | none => (st1, [])
  | some r =>
      if r.alive then
        let renamed := hasProjectBeenRenamedRun (args.headD .undefined)
        if renamed.1 then (st1, renamed.2)
        else
          match func with
          | none => (st1, [])
          | some f => (st1, invokeCb f args)
      else (st1, [])

/-- `Client.clear` (api.tsx lines 164-168): call `cancel()` on every entry of
the registry.  Returns the new state and the ids whose handles were
cancelled. -/
def clearRun (st : ClientState) : ClientState × List String :=
  ({ st with activeRequests := st.activeRequests.map fun p => (p.1, p.2.cancel) },
    st.activeRequests.map fun p => p.1)

/-- `handle.cancel()` for the handle registered under `id` (the handle
returned by `request` aliases the registry entry). -/
def cancelRun (st : ClientState) (id : String) : ClientState :=
  { st with activeRequests := cancelEntry st.activeRequests id }

/-- `Client.handleRequestError` (api.tsx lines 170-211): a response carrying
the sudo or superuser code opens the re-authentication modal and returns; any
other response is delivered to the wrapped error callback together with the
remaining response arguments.  The two closures handed to `openSudo` are
modelled by `sudoRetryRun` and `sudoOnCloseRun` below. -/
def handleRequestErrorRun (st : ClientState) (id path : String)
    (requestOptions : RequestOptions) (response : Val) (responseArgs : List Val) :
    ClientState × List Event :=
  let code := response.detailCode
  if code = some SUDO_REQUIRED ∨ code = some SUPERUSER_REQUIRED then
    (st, [.openSudoModal (decide (code = some SUPERUSER_REQUIRED))
      (decide (code = some SUDO_REQUIRED))])
  else
    wrapCallbackRun st id requestOptions.error false (response :: responseArgs)

/-- `Client.request(path, options)` (api.tsx lines 213-329) up to the point
the ajax call is issued: compute method and body, serialize the query —
reporting and re-raising on a serialization throw, with nothing registered —
then register a fresh alive `Request` under `id` and hand the ajax spec to the
transport.  The generated `uniqueId()` is passed in as `id`. -/
def requestRun (st : ClientState) (id path : String) (options : RequestOptions) :
    ClientState × List Event × Except Val AjaxSpec :=
  let method := effectiveMethod options
  let body := serializeBody options.data method
  match jqParamRun options.query with
  | .error e => (st, [.serializationReport path options.query], .error e)
  | .ok q =>
      ({ st with activeRequests := setEntry st.activeRequests id { alive := true } },
        [], .ok { url := buildFullUrl st.baseUrl path q, method := method, body := body })

/-- The ajax `success` handler installed by `request` (api.tsx lines 270-281):
after the telemetry measure, run the success callback through `wrapCallback`
(no cleanup) only when one was supplied. -/
def onAjaxSuccess (st : ClientState) (id : String) (options : RequestOptions)
    (data : Val) (textStatus : String) (xhr : Val) : ClientState × List Event :=
  match options.success with
  | none => (st, [])
  | some _ => wrapCallbackRun st id options.success false [data, .text textStatus, xhr]

/-- The ajax `error` handler installed by `request` (api.tsx lines 282-320):
report the failed response to Sentry (severity warning, tagged with the
status), then route it through `handleRequestError`. -/
def onAjaxError (st : ClientState) (id path : String) (options : RequestOptions)
    (resp : Val) (textStatus errorThrown : String) : ClientState × List Event :=
  let r := handleRequestErrorRun st id path options resp [.text textStatus, .text errorThrown]
  (r.1, .errorReport resp.status :: r.2)

/-- The ajax `complete` handler installed by `request` (api.tsx lines
321-324): the complete callback through `wrapCallback` with cleanup. -/
def onAjaxComplete (st : ClientState) (id : String) (options : RequestOptions)
    (jqXHR : Val) (textStatus : String) : ClientState × List Event :=
  wrapCallbackRun st id options.complete true [jqXHR, .text textStatus]

/-- Full delivery of a transport outcome for a request issued under `id`:
jQuery calls `success` then `complete`, or `error` then `complete`. -/
def deliverOutcome (st : ClientState) (id path : String) (options : RequestOptions) :
    TransportOutcome → ClientState × List Event
  | .success data ts xhr =>
      let r1 := onAjaxSuccess st id options data ts xhr
      let r2 := onAjaxComplete r1.1 id options xhr ts
      (r2.1, r1.2 ++ r2.2)
  | .failure resp ts et =>
      let r1 := onAjaxError st id path options resp ts et
      let r2 := onAjaxComplete r1.1 id options resp ts
      (r2.1, r1.2 ++ r2.2)

/-- `Client.requestPromise(path, {includeAllArgs, ...options})` (api.tsx lines
331-368) together with the delivery of the underlying transport outcome:
issue `request` with the resolver/rejecter installed over the caller options
(the rejecter captures the pre-captured `stack`, the caller's `options.method`
and the path).  A synchronous throw out of `request` inside the promise
executor rejects the promise with the thrown error. -/
def requestPromiseRun (st : ClientState) (id path : String) (includeAllArgs : Bool)
    (options : RequestOptions) (stack : String) (outcome : TransportOutcome) :
    ClientState × List Event × Option PromiseSettle :=
  let options' : RequestOptions :=
    { options with
        preservedError := some stack
        success := some (.resolver includeAllArgs)
        error := some (.rejecter stack options.method path) }
  match requestRun st id path options' with
  | (st1, evs1, .error e) => (st1, evs1, some (.rej e))
  | (st1, evs1, .ok _) =>
      let r2 := deliverOutcome st1 id path options' outcome
      (r2.1, evs1 ++ r2.2, settleOfEvents r2.2)

/-- The `onClose` closure handed to `openSudo` (api.tsx lines 194-200): when
the modal is dismissed, forward the original error response directly to the
caller's error callback (if one was supplied) — without `wrapCallback`. -/
def sudoOnCloseRun (requestOptions : RequestOptions) (response : Val) : List Event :=
  match requestOptions.error with
  | none => []
  | some cb => invokeCb cb [response]

/-- The `retryRequest` closure handed to `openSudo` (api.tsx lines 178-193):
re-issue `requestPromise(path, requestOptions)` under a fresh id and forward
the settlement directly to the caller's original success/error callback —
without `wrapCallback`.  `retryOutcome` is the transport outcome of the
replayed request. -/
def sudoRetryRun (st : ClientState) (newId path : String)
    (requestOptions : RequestOptions) (stack : String) (retryOutcome : TransportOutcome) :
    ClientState × List Event :=
  let r := requestPromiseRun st newId path false requestOptions stack retryOutcome
  let forwarded : List Event :=
    match r.2.2, requestOptions.success, requestOptions.error with
    | some (.res v), some cb, _ => invokeCb cb [v]
    | some (.res _), none, _ => []
    | some (.rej e), _, some cb => invokeCb cb [e]
    | some (.rej _), _, none => []
    | none, _, _ => []
  (r.1, r.2.1 ++ forwarded)

end Client

/-! ### Registry lemmas -/

theorem lookupReq_append_of_none {a : Registry} {id : String} (b : Registry)
    (h : lookupReq a id = none) : lookupReq (a ++ b) id = lookupReq b id := by
  induction a with
  | nil => simp
  | cons p rest ih =>
      by_cases hp : p.1 = id
      · simp [lookupReq, hp] at h
      · simp only [lookupReq, hp, if_neg, List.cons_append] at h ⊢
        exact ih h

theorem lookupReq_delEntry (m : Registry) (id : String) :
    lookupReq (delEntry m id) id = none := by
  induction m with
  | nil => rfl
  | cons p rest ih =>
      by_cases hp : p.1 = id
      · simp [delEntry, hp] at ih ⊢
        exact ih
      · simp [delEntry, hp, lookupReq] at ih ⊢
        exact ih

theorem lookupReq_setEntry (m : Registry) (id : String) (r : Request) :
    lookupReq (setEntry m id r) id = some r := by
  unfold setEntry
  rw [lookupReq_append_of_none _ (lookupReq_delEntry m id)]
  simp [lookupReq]

theorem lookupReq_cancelEntry (m : Registry) (id : String) :
    lookupReq (cancelEntry m id) id = (lookupReq m id).map Request.cancel := by
  induction m with
  | nil => rfl
  | cons p rest ih =>
      by_cases hp : p.1 = id
      · simp [cancelEntry, lookupReq, hp]
      · simp [cancelEntry, lookupReq, hp]
        exact ih

theorem countKey_delEntry (m : Registry) (id : String) :
    countKey (delEntry m id) id = 0 := by
  induction m with
  | nil => rfl
  | cons p rest ih =>
      by_cases hp : p.1 = id
      · simpa [delEntry, countKey, hp] using ih
      · simpa [delEntry, countKey, List.countP_cons, hp] using ih

theorem countKey_setEntry (m : Registry) (id : String) (r : Request) :
    countKey (setEntry m id r) id = 1 := by
  unfold setEntry countKey
  rw [List.countP_append]
  have h := countKey_delEntry m id
  unfold countKey at h
  simp [h, List.countP_cons]

theorem not_mem_keys_of_lookupReq_none {m : Registry} {id : String}
    (h : lookupReq m id = none) : id ∉ m.map Prod.fst := by
  induction m with
  | nil => simp
  | cons p rest ih =>
      by_cases hp : p.1 = id
      · simp [lookupReq, hp] at h
      · simp only [lookupReq, hp, if_neg] at h
        simp only [List.map_cons, List.mem_cons]
        rintro (h1 | h2)
        · exact hp h1.symm
        · exact ih h h2

/-! ### Wrapper lemmas -/

theorem wrapCallbackRun_fst (st : ClientState) (id : String) (func : Option Cb)
    (cleanup : Bool) (args : List Val) :
    (Client.wrapCallbackRun st id func cleanup args).1 =
      if cleanup then { st with activeRequests := delEntry st.activeRequests id } else st := by
  unfold Client.wrapCallbackRun
  cases lookupReq st.activeRequests id with
  | none => rfl
  | some r =>
      by_cases ha : r.alive
      · simp only [ha, if_true]
        split
        · rfl
        · cases func <;> rfl
      · simp [ha]

theorem wrapCallbackRun_dead (st : ClientState) (id : String) (func : Option Cb)
    (cleanup : Bool) (args : List Val) (r : Request)
    (hreg : lookupReq st.activeRequests id = some r) (hdead : r.alive = false) :
    Client.wrapCallbackRun st id func cleanup args =
      (if cleanup then { st with activeRequests := delEntry st.activeRequests id } else st,
        []) := by
  unfold Client.wrapCallbackRun
  rw [hreg]
  simp [hdead]

theorem wrapCallbackRun_absent (st : ClientState) (id : String) (func : Option Cb)
    (cleanup : Bool) (args : List Val)
    (hreg : lookupReq st.activeRequests id = none) :
    Client.wrapCallbackRun st id func cleanup args =
      (if cleanup then { st with activeRequests := delEntry st.activeRequests id } else st,
        []) := by
  unfold Client.wrapCallbackRun
  rw [hreg]

/-! ### Promise settlement lemmas -/

theorem requestPromiseRun_settle_success (st : ClientState) (id path : String) (all : Bool)
    (options : RequestOptions) (stack : String) (data xhr : Val) (ts : String)
    (hq : serializesOk options.query = true) (hd : data.detailCode = none) :
    (Client.requestPromiseRun st id path all options stack (.success data ts xhr)).2.2 =
      some (.res (if all then tupleOf [data, .text ts, xhr] else data)) := by
  unfold Client.requestPromiseRun Client.requestRun
  cases hjq : jqParamRun options.query with
  | error e => simp [serializesOk, hjq] at hq
  | ok q =>
      unfold Client.deliverOutcome Client.onAjaxSuccess Client.wrapCallbackRun
        Client.hasProjectBeenRenamedRun
      simp [hjq, lookupReq_setEntry, hd, invokeCb, settleOfEvents]

theorem requestPromiseRun_settle_failure (st : ClientState) (id path : String) (all : Bool)
    (options : RequestOptions) (stack : String) (resp : Val) (ts et : String)
    (hq : serializesOk options.query = true) (hr : resp.detailCode = none) :
    (Client.requestPromiseRun st id path all options stack (.failure resp ts et)).2.2 =
      some (.rej (createRequestError resp stack options.method path)) := by
  unfold Client.requestPromiseRun Client.requestRun
  cases hjq : jqParamRun options.query with
  | error e => simp [serializesOk, hjq] at hq
  | ok q =>
      unfold Client.deliverOutcome Client.onAjaxError Client.handleRequestErrorRun
        Client.wrapCallbackRun Client.hasProjectBeenRenamedRun
      simp [hjq, lookupReq_setEntry, hr, invokeCb, settleOfEvents, createRequestError]

/-! ### Claims about request issuing (C5, C8) -/

/-- Claim C5: if serializing `options.query` throws, `request` re-raises the
same error synchronously, after producing exactly one observability report
carrying the offending path and query; the client state is unchanged, so no
request id is registered. -/
theorem requestRun_serialization_throw (st : ClientState) (id path : String)
    (options : RequestOptions) (msg : String)
    (hq : options.query = some (.bad msg)) :
    Client.requestRun st id path options =
      (st, [.serializationReport path options.query], .error (.text msg)) := by
  unfold Client.requestRun
  simp [hq, jqParamRun]

/-- Claim C5 witness. -/
theorem requestRun_serialization_throw_witness :
    ({ query := some (.bad "cyclic object value") } : RequestOptions).query
        = some (.bad "cyclic object value") ∧
    Client.requestRun {} "1" "/issues/" { query := some (.bad "cyclic object value") } =
      ({}, [.serializationReport "/issues/"
          ({ query := some (.bad "cyclic object value") } : RequestOptions).query],
        .error (.text "cyclic object value")) :=
  ⟨rfl, requestRun_serialization_throw {} "1" "/issues/"
    { query := some (.bad "cyclic object value") } "cyclic object value" rfl⟩

/-- Claim C8 (amended): with no explicit `options.method`, the effective
method is POST iff the payload is defined and truthy, and GET otherwise — in
particular a defined but falsy payload (JS `0`, `''`, `false`, `null`) yields
GET; and, unconditionally, for every non-GET effective method with a defined
payload, the body handed to the transport is the JSON text serialization of
`options.data`. -/
theorem requestRun_method_and_body (st : ClientState) (id path : String)
    (options : RequestOptions) (st' : ClientState) (evs : List Event) (spec : AjaxSpec)
    (hrun : Client.requestRun st id path options = (st', evs, .ok spec)) :
    (options.method = none →
      ((spec.method = .POST ↔ dataTruthy options.data = true) ∧
        (spec.method = .GET ↔ dataTruthy options.data = false))) ∧
    (∀ d, options.data = some d → spec.method ≠ .GET → spec.body = .json d.json) := by
  unfold Client.requestRun at hrun
  cases hjq : jqParamRun options.query with
  | error e => simp [hjq] at hrun
  | ok q =>
      simp only [hjq, Prod.mk.injEq, Except.ok.injEq] at hrun
      obtain ⟨-, -, hspec⟩ := hrun
      subst hspec
      constructor
      · intro hm
        simp only [effectiveMethod, hm]
        cases hdt : dataTruthy options.data <;> simp [hdt]
      · intro d hd hng
        simp only [serializeBody, hd] at hng ⊢
        simp at hng
        rw [if_pos hng]

/-- The options bag of an explicit `PUT` with a defined payload, as
`bulkUpdate`/`merge` issue. -/
def putOptions : RequestOptions :=
  { method := some .PUT, data := some { json := "[1]", truthy := true } }

/-- The ajax spec `request` produces for `putOptions` on path "/p". -/
def putSpec : AjaxSpec :=
  { url := buildFullUrl "/api/0" "/p" "", method := .PUT, body := .json "[1]" }

/-- Claim C8 witness for the amended theorem (an explicit PUT with a defined
payload: the body is the JSON text). -/
theorem requestRun_method_and_body_witness :
    Client.requestRun {} "1" "/p" putOptions =
      ({ activeRequests := setEntry [] "1" { alive := true } }, [], .ok putSpec) ∧
    ((putOptions.method = none →
        ((putSpec.method = .POST ↔ dataTruthy putOptions.data = true) ∧
          (putSpec.method = .GET ↔ dataTruthy putOptions.data = false))) ∧
      (∀ d, putOptions.data = some d → putSpec.method ≠ .GET →
        putSpec.body = .json d.json)) :=
  ⟨rfl, requestRun_method_and_body {} "1" "/p" putOptions _ _ _ rfl⟩

/-- Claim C8 counterexample to the claim as stated: `request(path, {data: 0})`
has a given payload (`options.data` is defined) and no explicit method, yet
the effective method is GET, not POST, because the source tests JS truthiness
(`options.data ? 'POST' : 'GET'`) and `0` is falsy. -/
theorem request_method_falsy_payload_cex :
    ({ data := some { json := "0", truthy := false } } : RequestOptions).method = none ∧
    ({ data := some { json := "0", truthy := false } } : RequestOptions).data ≠ none ∧
    effectiveMethod { data := some { json := "0", truthy := false } } = .GET :=
  ⟨rfl, by decide, rfl⟩

/-! ### Claim about requestPromise (C6) -/

/-- Claim C6: for a request issued through `requestPromise`, a failing
transport outcome (one that does not carry one of the special detail codes)
rejects the promise with the constructed error object carrying the original
response, the pre-captured stack, the caller's method and the path; a
successful outcome without `includeAllArgs` resolves with the raw payload
itself, not wrapped in an array; with `includeAllArgs` it resolves with the
array `[data, textStatus, xhr]`. -/
theorem requestPromise_reject_resolve (st : ClientState) (id path : String)
    (options : RequestOptions) (stack : String)
    (hq : serializesOk options.query = true) :
    (∀ resp ts et, Val.detailCode resp = none →
      (Client.requestPromiseRun st id path false options stack (.failure resp ts et)).2.2 =
        some (.rej (createRequestError resp stack options.method path))) ∧
    (∀ data ts xhr, Val.detailCode data = none →
      (Client.requestPromiseRun st id path false options stack (.success data ts xhr)).2.2 =
        some (.res data)) ∧
    (∀ data ts xhr, Val.detailCode data = none →
      (Client.requestPromiseRun st id path true options stack (.success data ts xhr)).2.2 =
        some (.res (tupleOf [data, .text ts, xhr]))) := by
  refine ⟨fun resp ts et hr =>
      requestPromiseRun_settle_failure st id path false options stack resp ts et hq hr,
    fun data ts xhr hd => by
      simpa using requestPromiseRun_settle_success st id path false options stack data xhr ts hq hd,
    fun data ts xhr hd => by
      simpa using requestPromiseRun_settle_success st id path true options stack data xhr ts hq hd⟩

/-- Claim C6 witness. -/
theorem requestPromise_reject_resolve_witness :
    serializesOk ({} : RequestOptions).query = true ∧
    ((∀ resp ts et, Val.detailCode resp = none →
      (Client.requestPromiseRun {} "1" "/p" false {} "stk" (.failure resp ts et)).2.2 =
        some (.rej (createRequestError resp "stk" ({} : RequestOptions).method "/p"))) ∧
    (∀ data ts xhr, Val.detailCode data = none →
      (Client.requestPromiseRun {} "1" "/p" false {} "stk" (.success data ts xhr)).2.2 =
        some (.res data)) ∧
    (∀ data ts xhr, Val.detailCode data = none →
      (Client.requestPromiseRun {} "1" "/p" true {} "stk" (.success data ts xhr)).2.2 =
        some (.res (tupleOf [data, .text ts, xhr])))) :=
  ⟨rfl, requestPromise_reject_resolve {} "1" "/p" {} "stk" rfl⟩

/-! ### Claims about the re-authentication branch (C2, C9) -/

/-- A response carrying the sudo-required code (status 401). -/
def sudoResp : Val := .resp (some SUDO_REQUIRED) none 401 ""

/-- An options bag with all three caller callbacks supplied. -/
def callerOptions : RequestOptions :=
  { success := some (.caller .success), error := some (.caller .error),
    complete := some (.caller .complete) }

/-- A client whose registry holds one cancelled (not-alive) handle under "1". -/
def deadClient : ClientState :=
  { activeRequests := [("1", { alive := false })] }

/-- Claim C2: on an error response carrying the sudo-required or
superuser-required code, `handleRequestError` only opens the interactive
re-authentication modal (with the matching superuser/sudo flags) and does not
invoke the caller's error callback; if the modal is cancelled, the original
error response is forwarded to the original error callback; if it confirms,
the same path and options are replayed through `requestPromise` and the
retry's settlement is forwarded to the original success callback (resolved
payload) or error callback (constructed request error). -/
theorem sudo_required_reauth_flow (st : ClientState) (id path newId : String)
    (options : RequestOptions) (resp : Val) (respArgs : List Val) (stack : String)
    (hs : resp.detailCode = some SUDO_REQUIRED ∨ resp.detailCode = some SUPERUSER_REQUIRED)
    (herr : options.error = some (.caller .error))
    (hsucc : options.success = some (.caller .success))
    (hq : serializesOk options.query = true) :
    Client.handleRequestErrorRun st id path options resp respArgs =
      (st, [.openSudoModal (decide (resp.detailCode = some SUPERUSER_REQUIRED))
        (decide (resp.detailCode = some SUDO_REQUIRED))]) ∧
    Client.sudoOnCloseRun options resp = [.cbCall .error [resp]] ∧
    (∀ data ts xhr, Val.detailCode data = none →
      Event.cbCall .success [data] ∈
        (Client.sudoRetryRun st newId path options stack (.success data ts xhr)).2) ∧
    (∀ resp2 ts et, Val.detailCode resp2 = none →
      Event.cbCall .error [createRequestError resp2 stack options.method path] ∈
        (Client.sudoRetryRun st newId path options stack (.failure resp2 ts et)).2) := by
  refine ⟨?_, ?_, ?_, ?_⟩
  · rcases hs with h | h <;> simp [Client.handleRequestErrorRun, h]
  · simp [Client.sudoOnCloseRun, herr, invokeCb]
  · intro data ts xhr hd
    simp [Client.sudoRetryRun,
      requestPromiseRun_settle_success st newId path false options stack data xhr ts hq hd,
      hsucc, invokeCb]
  · intro resp2 ts et hr
    simp [Client.sudoRetryRun,
      requestPromiseRun_settle_failure st newId path false options stack resp2 ts et hq hr,
      herr, invokeCb]

/-- Claim C2 witness. -/
theorem sudo_required_reauth_flow_witness :
    ((sudoResp.detailCode = some SUDO_REQUIRED ∨
        sudoResp.detailCode = some SUPERUSER_REQUIRED) ∧
      callerOptions.error = some (.caller .error) ∧
      callerOptions.success = some (.caller .success) ∧
      serializesOk callerOptions.query = true) ∧
    (Client.handleRequestErrorRun {} "1" "/p" callerOptions sudoResp [] =
        ({}, [.openSudoModal (decide (sudoResp.detailCode = some SUPERUSER_REQUIRED))
          (decide (sudoResp.detailCode = some SUDO_REQUIRED))]) ∧
      Client.sudoOnCloseRun callerOptions sudoResp = [.cbCall .error [sudoResp]] ∧
      (∀ data ts xhr, Val.detailCode data = none →
        Event.cbCall .success [data] ∈
          (Client.sudoRetryRun {} "2" "/p" callerOptions "stk" (.success data ts xhr)).2) ∧
      (∀ resp2 ts et, Val.detailCode resp2 = none →
        Event.cbCall .error [createRequestError resp2 "stk" callerOptions.method "/p"] ∈
          (Client.sudoRetryRun {} "2" "/p" callerOptions "stk" (.failure resp2 ts et)).2)) :=
  ⟨⟨Or.inl rfl, rfl, rfl, rfl⟩,
    sudo_required_reauth_flow {} "1" "/p" "2" callerOptions sudoResp [] "stk"
      (Or.inl rfl) rfl rfl rfl⟩

/-- Claim C9: the callbacks of the re-authentication branch are invoked
directly on the caller-supplied functions, not through `wrapCallback`: in a
state where the original handle is cancelled — where wrapped delivery of the
same error callback is suppressed — the modal's onClose still forwards the
original response to the error callback, and a confirmed retry still forwards
the replayed request's payload to the success callback. -/
theorem sudo_branch_direct_callbacks (st : ClientState) (origId newId path : String)
    (options : RequestOptions) (resp data xhr : Val) (ts stack : String)
    (args : List Val) (r : Request)
    (hreg : lookupReq st.activeRequests origId = some r) (hdead : r.alive = false)
    (herr : options.error = some (.caller .error))
    (hsucc : options.success = some (.caller .success))
    (hq : serializesOk options.query = true) (hd : Val.detailCode data = none) :
    Client.wrapCallbackRun st origId options.error false (resp :: args) = (st, []) ∧
    Client.sudoOnCloseRun options resp = [.cbCall .error [resp]] ∧
    Event.cbCall .success [data] ∈
      (Client.sudoRetryRun st newId path options stack (.success data ts xhr)).2 := by
  refine ⟨?_, ?_, ?_⟩
  · simpa using wrapCallbackRun_dead st origId options.error false (resp :: args) r hreg hdead
  · simp [Client.sudoOnCloseRun, herr, invokeCb]
  · simp [Client.sudoRetryRun,
      requestPromiseRun_settle_success st newId path false options stack data xhr ts hq hd,
      hsucc, invokeCb]

/-- Claim C9 witness. -/
theorem sudo_branch_direct_callbacks_witness :
    (lookupReq deadClient.activeRequests "1" = some { alive := false } ∧
      callerOptions.error = some (.caller .error) ∧
      callerOptions.success = some (.caller .success) ∧
      serializesOk callerOptions.query = true ∧
      Val.detailCode (.resp none none 200 "ok") = none) ∧
    (Client.wrapCallbackRun deadClient "1" callerOptions.error false [sudoResp] =
        (deadClient, []) ∧
      Client.sudoOnCloseRun callerOptions sudoResp = [.cbCall .error [sudoResp]] ∧
      Event.cbCall .success [.resp none none 200 "ok"] ∈
        (Client.sudoRetryRun deadClient "2" "/p" callerOptions "stk"
          (.success (.resp none none 200 "ok") "success" .undefined)).2) :=
  ⟨⟨rfl, rfl, rfl, rfl, rfl⟩,
    sudo_branch_direct_callbacks deadClient "1" "2" "/p" callerOptions sudoResp
      (.resp none none 200 "ok") .undefined "success" "stk" [] { alive := false }
      rfl rfl rfl rfl rfl rfl⟩

/-! ### Claims about cancellation and registry cleanup (C3, C4, C10) -/

/-- Outcomes a cancelled transport can deliver: any success, or a failure
whose response carries no `responseJSON.detail.code` — which is what a jQuery
abort produces (the aborted xhr has no parsed response body). -/
def benignOutcome : TransportOutcome → Bool
  | .success _ _ _ => true
  | .failure resp _ _ => resp.detailCode.isNone

/-- Registry shape after `request` successfully issues: a fresh alive handle
is stored under the generated id and the base URL is unchanged. -/
theorem requestRun_ok_registry (st0 : ClientState) (id path : String)
    (options : RequestOptions) (st1 : ClientState) (evs : List Event) (spec : AjaxSpec)
    (hissue : Client.requestRun st0 id path options = (st1, evs, .ok spec)) :
    st1.activeRequests = setEntry st0.activeRequests id { alive := true } ∧
    st1.baseUrl = st0.baseUrl := by
  unfold Client.requestRun at hissue
  cases hjq : jqParamRun options.query with
  | error e => simp [hjq] at hissue
  | ok q =>
      simp only [hjq, Prod.mk.injEq] at hissue
      obtain ⟨h1, -⟩ := hissue
      rw [← h1]
      exact ⟨rfl, rfl⟩

theorem onAjaxSuccess_fst (st : ClientState) (id : String) (options : RequestOptions)
    (data : Val) (ts : String) (xhr : Val) :
    (Client.onAjaxSuccess st id options data ts xhr).1 = st := by
  unfold Client.onAjaxSuccess
  cases options.success with
  | none => rfl
  | some c => simpa using wrapCallbackRun_fst st id (some c) false [data, .text ts, xhr]

theorem onAjaxComplete_fst (st : ClientState) (id : String) (options : RequestOptions)
    (jqXHR : Val) (ts : String) :
    (Client.onAjaxComplete st id options jqXHR ts).1 =
      { st with activeRequests := delEntry st.activeRequests id } := by
  unfold Client.onAjaxComplete
  simpa using wrapCallbackRun_fst st id options.complete true [jqXHR, .text ts]

/-- Claim C3: a request that is issued and then cancelled before completion
delivers none of the caller-supplied success/error/complete callbacks when
its transport outcome arrives (for any success payload, and for any failure
response without a detail code — the shape a jQuery abort produces). -/
theorem cancelled_request_no_callbacks (st0 : ClientState) (id path : String)
    (options : RequestOptions) (outcome : TransportOutcome)
    (st1 : ClientState) (evs : List Event) (spec : AjaxSpec)
    (hissue : Client.requestRun st0 id path options = (st1, evs, .ok spec))
    (hout : benignOutcome outcome = true) :
    ∀ k args, Event.cbCall k args ∉
      (Client.deliverOutcome (Client.cancelRun st1 id) id path options outcome).2 := by
  obtain ⟨hact, -⟩ := requestRun_ok_registry st0 id path options st1 evs spec hissue
  have hreg : lookupReq (Client.cancelRun st1 id).activeRequests id =
      some { alive := false } := by
    simp [Client.cancelRun, lookupReq_cancelEntry, hact, lookupReq_setEntry, Request.cancel]
  intro k args
  cases outcome with
  | success data ts xhr =>
      have h1 : Client.onAjaxSuccess (Client.cancelRun st1 id) id options data ts xhr =
          (Client.cancelRun st1 id, []) := by
        unfold Client.onAjaxSuccess
        cases options.success with
        | none => rfl
        | some c =>
            simpa using wrapCallbackRun_dead (Client.cancelRun st1 id) id (some c) false
              [data, .text ts, xhr] _ hreg rfl
      have h2 := wrapCallbackRun_dead (Client.cancelRun st1 id) id options.complete true
        [xhr, .text ts] _ hreg rfl
      simp [Client.deliverOutcome, Client.onAjaxComplete, h1, h2]
  | failure resp ts et =>
      have hcode : resp.detailCode = none := by
        simpa [benignOutcome, Option.isNone_iff_eq_none] using hout
      have h1 : Client.handleRequestErrorRun (Client.cancelRun st1 id) id path options resp
          [.text ts, .text et] = (Client.cancelRun st1 id, []) := by
        unfold Client.handleRequestErrorRun
        rw [hcode]
        simpa using wrapCallbackRun_dead (Client.cancelRun st1 id) id options.error false
          (resp :: [.text ts, .text et]) _ hreg rfl
      have h2 := wrapCallbackRun_dead (Client.cancelRun st1 id) id options.complete true
        [resp, .text ts] _ hreg rfl
      simp [Client.deliverOutcome, Client.onAjaxError, Client.onAjaxComplete, h1, h2]

/-- Claim C3 witness (issue under id "1", cancel, then deliver an abort-shaped
failure outcome: no callback events). -/
theorem cancelled_request_no_callbacks_witness :
    (Client.requestRun {} "1" "/p" {} =
        ({ activeRequests := setEntry [] "1" { alive := true } }, [],
          .ok { url := buildFullUrl "/api/0" "/p" "", method := .GET, body := .undefined }) ∧
      benignOutcome (.failure (.resp none none 0 "") "abort" "abort") = true) ∧
    (∀ k args, Event.cbCall k args ∉
      (Client.deliverOutcome
        (Client.cancelRun { activeRequests := setEntry [] "1" { alive := true } } "1")
        "1" "/p" {} (.failure (.resp none none 0 "") "abort" "abort")).2) :=
  ⟨⟨rfl, rfl⟩,
    cancelled_request_no_callbacks {} "1" "/p" {}
      (.failure (.resp none none 0 "") "abort" "abort")
      { activeRequests := setEntry [] "1" { alive := true } } []
      { url := buildFullUrl "/api/0" "/p" "", method := .GET, body := .undefined } rfl rfl⟩

/-- Claim C4: after a request issued under `id` completes successfully, the id
is held exactly once after the success wrapper runs (which does not clean up)
and zero times after the completion wrapper runs (the single removal), and a
subsequent `clear()` does not call `cancel()` on that id again. -/
theorem request_success_cleanup (st0 : ClientState) (id path : String)
    (options : RequestOptions) (data xhr : Val) (ts : String)
    (st1 : ClientState) (evs : List Event) (spec : AjaxSpec)
    (hissue : Client.requestRun st0 id path options = (st1, evs, .ok spec)) :
    countKey (Client.onAjaxSuccess st1 id options data ts xhr).1.activeRequests id = 1 ∧
    countKey (Client.onAjaxComplete (Client.onAjaxSuccess st1 id options data ts xhr).1
        id options xhr ts).1.activeRequests id = 0 ∧
    id ∉ (Client.clearRun (Client.onAjaxComplete
        (Client.onAjaxSuccess st1 id options data ts xhr).1 id options xhr ts).1).2 := by
  obtain ⟨hact, -⟩ := requestRun_ok_registry st0 id path options st1 evs spec hissue
  rw [onAjaxSuccess_fst, onAjaxComplete_fst]
  refine ⟨?_, ?_, ?_⟩
  · rw [hact]
    exact countKey_setEntry st0.activeRequests id { alive := true }
  · exact countKey_delEntry st1.activeRequests id
  · have hl : lookupReq (delEntry st1.activeRequests id) id = none :=
      lookupReq_delEntry st1.activeRequests id
    simpa [Client.clearRun] using not_mem_keys_of_lookupReq_none hl

/-- Claim C4 witness. -/
theorem request_success_cleanup_witness :
    Client.requestRun {} "1" "/p" {} =
      ({ activeRequests := setEntry [] "1" { alive := true } }, [],
        .ok { url := buildFullUrl "/api/0" "/p" "", method := .GET, body := .undefined }) ∧
    (countKey (Client.onAjaxSuccess { activeRequests := setEntry [] "1" { alive := true } }
        "1" {} .undefined "success" .undefined).1.activeRequests "1" = 1 ∧
      countKey (Client.onAjaxComplete
        (Client.onAjaxSuccess { activeRequests := setEntry [] "1" { alive := true } }
          "1" {} .undefined "success" .undefined).1 "1" {} .undefined "success").1.activeRequests "1" = 0 ∧
      "1" ∉ (Client.clearRun (Client.onAjaxComplete
        (Client.onAjaxSuccess { activeRequests := setEntry [] "1" { alive := true } }
          "1" {} .undefined "success" .undefined).1 "1" {} .undefined "success").1).2) :=
  ⟨rfl, request_success_cleanup {} "1" "/p" {} .undefined .undefined "success"
    { activeRequests := setEntry [] "1" { alive := true } } []
    { url := buildFullUrl "/api/0" "/p" "", method := .GET, body := .undefined } rfl⟩

/-- Claim C10: the completion wrapper (`wrapCallback` with cleanup) removes
the request id from the registry unconditionally — even when the registered
handle is cancelled (not alive), in which case the caller's complete callback
is still suppressed. -/
theorem complete_cleanup_unconditional (st : ClientState) (id : String)
    (options : RequestOptions) (jqXHR : Val) (ts : String) (r : Request)
    (hreg : lookupReq st.activeRequests id = some r) (hdead : r.alive = false) :
    (Client.onAjaxComplete st id options jqXHR ts).1.activeRequests =
      delEntry st.activeRequests id ∧
    lookupReq (Client.onAjaxComplete st id options jqXHR ts).1.activeRequests id = none ∧
    (Client.onAjaxComplete st id options jqXHR ts).2 = [] := by
  have h := wrapCallbackRun_dead st id options.complete true [jqXHR, .text ts] r hreg hdead
  unfold Client.onAjaxComplete
  rw [h]
  simp [lookupReq_delEntry]

/-- Claim C10 witness. -/
theorem complete_cleanup_unconditional_witness :
    (lookupReq deadClient.activeRequests "1" = some { alive := false } ∧
      ({ alive := false } : Request).alive = false) ∧
    ((Client.onAjaxComplete deadClient "1" callerOptions .undefined "abort").1.activeRequests =
        delEntry deadClient.activeRequests "1" ∧
      lookupReq (Client.onAjaxComplete deadClient "1" callerOptions .undefined
        "abort").1.activeRequests "1" = none ∧
      (Client.onAjaxComplete deadClient "1" callerOptions .undefined "abort").2 = []) :=
  ⟨⟨rfl, rfl⟩, complete_cleanup_unconditional deadClient "1" callerOptions .undefined "abort"
    { alive := false } rfl rfl⟩
